import Mathlib

/-!
Verification of the OGS notifications server (`main.go`) against its
natural-language specification.  The Go program is shallowly embedded:
Go maps become association lists, Go slices become lists (or
`Option (List _)` where nil-ness of a slice is observable), machine
integers become `Int`, and the two external collaborators (the upstream
game-state HTTP API and the APNs push transport) become explicit inputs
(`Except`-valued snapshots and a `PushResult` oracle).
-/

set_option autoImplicit false

namespace OGSNotif

/-- Association-list read, modelling a Go map read (`m[k]`, comma-ok form). -/
def lookupA {α β : Type} [DecidableEq α] : List (α × β) → α → Option β
  | [], _ => none
  | (k, v) :: rest, a => if a = k then some v else lookupA rest a

/-- Association-list write, modelling a Go map write (`m[k] = v`). -/
def setA {α β : Type} [DecidableEq α] : List (α × β) → α → β → List (α × β)
  | [], k, v => [(k, v)]
  | (k', v') :: rest, k, v =>
      if k' = k then (k, v) :: rest else (k', v') :: setA rest k v

/-- `clock` object of a game in the upstream API response (`Clock` in main.go). -/
structure Clock where
  currentPlayer : Int
  lastMove : Int
deriving DecidableEq

/-- `json` field of a game (`GameState` in main.go). -/
structure GameState where
  clock : Clock
deriving DecidableEq

/-- One active game in the upstream API response (`Game` in main.go). -/
structure Game where
  id : Int
  name : String
  json : GameState
deriving DecidableEq

/-- Per-request classification result (`TurnStatus` in main.go). -/
structure TurnStatus where
  notYourTurn : List Int
  yourTurnNew : List Int
  yourTurnOld : List Int
deriving DecidableEq

/-- `moves` field of the storage: userID -> gameID -> lastMove. -/
abbrev Moves := List (String × List (Int × Int))

/-- In-memory shared state (`MoveStorage` in main.go; the mutex is not
modelled, state is passed explicitly). -/
structure MoveStorage where
  moves : Moves
  deviceTokens : List (String × String)
  lastNotificationTime : List (String × Int)
deriving DecidableEq

/-- The initial value of the package-level `storage` variable in main.go
(three empty maps, created with `make`). -/
def initialStorage : MoveStorage := ⟨[], [], []⟩

/-- Two-level read of the stored move marker for (userID, gameID). -/
def lookupGame (mv : Moves) (userID : String) (gameID : Int) : Option Int :=
  match lookupA mv userID with
  | none => none
  | some userMoves => lookupA userMoves gameID

/-- `isNewTurn` from main.go: first sight of the user or of the game is
always new; otherwise new iff the incoming move is strictly later. -/
def isNewTurn (mv : Moves) (userID : String) (gameID : Int) (currentMove : Int) : Bool :=
  match lookupA mv userID with
  | none => true
  | some userMoves =>
    match lookupA userMoves gameID with
    | none => true
    | some lastMove => decide (lastMove < currentMove)

/-- `updateStoredMove` from main.go: creates the inner map when absent,
then writes the marker. -/
def updateStoredMove (mv : Moves) (userID : String) (gameID : Int) (lastMove : Int) : Moves :=
  match lookupA mv userID with
  | none => setA mv userID [(gameID, lastMove)]
  | some userMoves => setA mv userID (setA userMoves gameID lastMove)

/-- The classification loop body of `getUserTurnStatus` (main.go lines
168-185), as a structural recursion over the fetched games.  Returns the
`TurnStatus`, the updated `moves` map, and the accumulated
`newTurnGames` slice, in the same iteration order as the Go loop. -/
def classifyGames (userID : Int) (userIDStr : String) :
    List Game → Moves → TurnStatus × Moves × List Game
  | [], mv => (⟨[], [], []⟩, mv, [])
  | game :: rest, mv =>
      if game.json.clock.currentPlayer = userID then
        if isNewTurn mv userIDStr game.id game.json.clock.lastMove then
          let mv2 := updateStoredMove mv userIDStr game.id game.json.clock.lastMove
          let r := classifyGames userID userIDStr rest mv2
          (⟨r.1.notYourTurn, game.id :: r.1.yourTurnNew, r.1.yourTurnOld⟩,
           r.2.1, game :: r.2.2)
        else
          let r := classifyGames userID userIDStr rest mv
          (⟨r.1.notYourTurn, r.1.yourTurnNew, game.id :: r.1.yourTurnOld⟩,
           r.2.1, r.2.2)
      else
        let r := classifyGames userID userIDStr rest mv
        (⟨game.id :: r.1.notYourTurn, r.1.yourTurnNew, r.1.yourTurnOld⟩,
         r.2.1, r.2.2)

/-- Result of one `getUserTurnStatus` evaluation: the HTTP-level status
value (or the propagated fetch error), the storage after the marker
commits, and the `newTurnGames` slice handed to the push dispatcher. -/
structure EvalResult where
  status : Except String TurnStatus
  storage : MoveStorage
  newTurnGames : List Game

/-- `getUserTurnStatus` from main.go.  The upstream snapshot
(`getActiveGames`, a network call) is an explicit input: `.error e`
models a failed fetch (unreachable API, non-200 status, or unparsable
body), `.ok games` a parsed response. -/
def getUserTurnStatus (userID : Int) (fetch : Except String (List Game))
    (st : MoveStorage) : EvalResult :=
  match fetch with
  | .error e => ⟨.error e, st, []⟩
  | .ok games =>
      let userIDStr := toString userID
      let r := classifyGames userID userIDStr games st.moves
      ⟨.ok r.1, ⟨r.2.1, st.deviceTokens, st.lastNotificationTime⟩, r.2.2⟩

/-- Outcome reported by the APNs transport for one `Push` call
(`err != nil`, `res.Sent()` false, or `res.Sent()` true). -/
inductive PushResult where
  | transportError
  | rejected
  | sent
deriving DecidableEq

/-- The notification built by `sendConsolidatedPushNotification`:
device token, topic, alert title/body, badge, sound, the custom
key/value fields, and the collapse id. -/
structure NotificationPayload where
  deviceToken : String
  topic : String
  title : String
  body : String
  badge : Nat
  sound : String
  webURL : String
  appURL : String
  gameId : Int
  action : String
  gameName : String
  collapseId : String
deriving DecidableEq

/-- `ENVIRONMENT` defaulting from main.go lines 605-608: empty means
"none". -/
def resolveEnvironment (environment : String) : String :=
  if environment = "" then "none" else environment

/-- Body-text construction of main.go lines 610-626: one game names the
game, otherwise the count of games is stated. -/
def notificationBody (env : String) (newTurnGames : List Game) (firstGame : Game) : String :=
  if newTurnGames.length = 1 then
    if env ≠ "none" then
      "[" ++ env ++ "] It\x27s your turn in: " ++ firstGame.name
    else
      "It\x27s your turn in: " ++ firstGame.name
  else
    if env ≠ "none" then
      "[" ++ env ++ "] It\x27s your turn in " ++ toString newTurnGames.length ++ " games"
    else
      "It\x27s your turn in " ++ toString newTurnGames.length ++ " games"

/-- `sendConsolidatedPushNotification` from main.go.  `apnsReady` models
`apnsClient != nil`, `res` is the transport outcome of the single
`apnsClient.Push` call, `now` is `time.Now().Unix()`.  Returns the
pushed notification (with its outcome) when a `Push` call was made, and
the resulting storage: `lastNotificationTime` is written only in the
`res.Sent()` branch. -/
def sendConsolidatedPushNotification (apnsReady : Bool) (environment : String)
    (now : Int) (res : PushResult) (userID : String) (newTurnGames : List Game)
    (st : MoveStorage) : Option (NotificationPayload × PushResult) × MoveStorage :=
  if apnsReady = false then (none, st) else
  match lookupA st.deviceTokens userID with
  | none => (none, st)
  | some deviceToken =>
    match newTurnGames with
    | [] => (none, st)
    | firstGame :: rest =>
      let env := resolveEnvironment environment
      let body := notificationBody env (firstGame :: rest) firstGame
      let webURL := "https://online-go.com/game/" ++ toString firstGame.id
      let appURL := "ogs://game/" ++ toString firstGame.id
      let n : NotificationPayload :=
        ⟨deviceToken, "online-go-server-push-notification", "Your turn in Go!",
         body, (firstGame :: rest).length, "default", webURL, appURL,
         firstGame.id, "open_game", firstGame.name, "game_turn"⟩
      match res with
      | .sent =>
          (some (n, res),
           ⟨st.moves, st.deviceTokens, setA st.lastNotificationTime userID now⟩)
      | .transportError => (some (n, res), st)
      | .rejected => (some (n, res), st)

/-- Parsed body of a `POST /register` request (`DeviceRegistration`). -/
structure DeviceRegistration where
  userID : String
  deviceToken : String
deriving DecidableEq

/-- `registerDevice` from main.go; `parsed` is the JSON-decode outcome of
the request body (`none` = invalid JSON). -/
def registerDevice (parsed : Option DeviceRegistration) (st : MoveStorage) :
    Except String String × MoveStorage :=
  match parsed with
  | none => (.error "Invalid JSON", st)
  | some registration =>
      if registration.userID = "" ∨ registration.deviceToken = "" then
        (.error "user_id and device_token are required", st)
      else
        (.ok "registered",
         ⟨st.moves,
          setA st.deviceTokens registration.userID registration.deviceToken,
          st.lastNotificationTime⟩)

/-- The anonymous struct `loadStorage` unmarshals a new-format file into;
an `Option` field is `none` when the JSON key is absent (Go nil map). -/
structure StorageFileNewFormat where
  moves : Option Moves
  deviceTokens : Option (List (String × String))
  lastNotificationTime : Option (List (String × Int))

/-- What `loadStorage` finds on disk: no file, or a file together with
the two unmarshal outcomes (`parseNew` into the new-format struct,
`parseOld` into the bare legacy moves map; `none` = parse error). -/
inductive LoadInput where
  | noFile
  | file (parseNew : Option StorageFileNewFormat) (parseOld : Option Moves)

/-- Fallback branch of `loadStorage` (main.go lines 292-298): on old-format
parse success only `storage.moves` is overwritten, the device-token and
notification-time maps keep their initial empty values; on parse failure
all three are reset to empty maps. -/
def loadStorageOldFormat : Option Moves → MoveStorage
  | some mv => ⟨mv, [], []⟩
  | none => ⟨[], [], []⟩

/-- `loadStorage` from main.go, starting from the initial empty maps of
the package-level `storage` variable.  The new format is used only when
its parse succeeds and its `moves` field is non-nil; absent device-token
or notification-time maps keep the initial empty maps. -/
def loadStorage : LoadInput → MoveStorage
  | .noFile => ⟨[], [], []⟩
  | .file parseNew parseOld =>
      match parseNew with
      | some d =>
          match d.moves with
          | some mv => ⟨mv, d.deviceTokens.getD [], d.lastNotificationTime.getD []⟩
          | none => loadStorageOldFormat parseOld
      | none => loadStorageOldFormat parseOld

/-- One entry of the diagnostics response (`GameDiagnostic`). -/
structure GameDiagnostic where
  gameId : Int
  lastMoveTimestamp : Int
  currentPlayer : Int
  isYourTurn : Bool
  gameName : String
deriving DecidableEq

/-- The diagnostics response (`UserDiagnostics`). -/
structure UserDiagnostics where
  userID : String
  deviceTokenRegistered : Bool
  deviceTokenPreview : String
  lastNotificationTime : Int
  monitoredGames : List GameDiagnostic
  totalActiveGames : Nat
  serverCheckInterval : String
  lastServerCheckTime : Int
deriving DecidableEq

/-- `getUserDiagnostics` from main.go; `userIDStr.toInt?` models
`strconv.Atoi`, `now` models `time.Now().Unix()`, `fetch` the
`getActiveGames` call. -/
def getUserDiagnostics (userIDStr : String) (now : Int)
    (fetch : Except String (List Game)) (st : MoveStorage) :
    Except String UserDiagnostics :=
  match userIDStr.toInt? with
  | none => .error "Invalid user ID"
  | some userID =>
      let hasDeviceToken := (lookupA st.deviceTokens userIDStr).isSome
      let lastNotificationTime := (lookupA st.lastNotificationTime userIDStr).getD 0
      match fetch with
      | .error _ => .error "Failed to fetch user games"
      | .ok games =>
          .ok ⟨userIDStr, hasDeviceToken,
               if hasDeviceToken then "[REGISTERED]" else "",
               lastNotificationTime,
               games.map (fun game =>
                 ⟨game.id, game.json.clock.lastMove, game.json.clock.currentPlayer,
                  game.json.clock.currentPlayer == userID, game.name⟩),
               games.length, "30s", now⟩

/-- Go `append` on a possibly-nil slice: appending to the nil slice
yields a non-nil one-element slice. -/
def goAppend {α : Type} (s : Option (List α)) (x : α) : Option (List α) :=
  match s with
  | none => some [x]
  | some l => some (l ++ [x])

/-- The `/users-by-token` response (`DeviceTokenUsers`); `userIDs` is a
Go slice whose nil-ness is observable in the JSON encoding. -/
structure DeviceTokenUsers where
  deviceToken : String
  userIDs : Option (List String)
deriving DecidableEq

/-- `encoding/json` rendering of the `user_ids` slice: a nil slice
serializes as JSON `null`, a non-nil slice as an array. -/
def userIDsJSON : Option (List String) → String
  | none => "null"
  | some l => "[" ++ String.intercalate "," (l.map (fun s => "\"" ++ s ++ "\"")) ++ "]"

/-- `getUsersByDeviceToken` from main.go: linear scan over the
device-token map, appending matching user IDs to an initially nil slice. -/
def getUsersByDeviceToken (deviceToken : String) (st : MoveStorage) :
    Except String DeviceTokenUsers :=
  if deviceToken = "" then .error "Device token is required"
  else
    let matchingUserIDs := st.deviceTokens.foldl
      (fun acc p => if p.2 = deviceToken then goAppend acc p.1 else acc) none
    .ok ⟨deviceToken, matchingUserIDs⟩

/-- The string values occurring in a serialized diagnostics response. -/
def diagnosticsStrings (d : UserDiagnostics) : List String :=
  d.userID :: d.deviceTokenPreview :: d.serverCheckInterval ::
    d.monitoredGames.map GameDiagnostic.gameName

/-- The string values occurring in a serialized `/users-by-token`
response. -/
def deviceTokenUsersStrings (r : DeviceTokenUsers) : List String :=
  r.deviceToken :: r.userIDs.getD []

/-- One iteration of the `checkAllUsers` loop: `strconv.Atoi` the user
ID (skip on failure), evaluate via `getUserTurnStatus` (skip on fetch
error, keeping the state of the successful part). -/
def processUser (fetches : String → Except String (List Game)) (uid : String)
    (st : MoveStorage) : MoveStorage :=
  match uid.toInt? with
  | none => st
  | some userID => (getUserTurnStatus userID (fetches uid) st).storage

/-- The `checkAllUsers` sweep over an explicit list of registered user
IDs (the Go range over the copied device-token map). -/
def checkUsersList (fetches : String → Except String (List Game)) :
    List String → MoveStorage → MoveStorage
  | [], st => st
  | u :: rest, st => checkUsersList fetches rest (processUser fetches u st)

/-- `checkAllUsers` from main.go: sweep every user that has a registered
device token. -/
def checkAllUsers (fetches : String → Except String (List Game))
    (st : MoveStorage) : MoveStorage :=
  checkUsersList fetches (st.deviceTokens.map Prod.fst) st

/-- Observable events of one `getUserTurnStatus` evaluation, for the
ordering claims: classifying one game, spawning the push goroutine
(`go sendConsolidatedPushNotification(...)`), the goroutine's
`apnsClient.Push` attempt, and the main thread's `saveStorage()`. -/
inductive Event where
  | classifyGame (gameId : Int)
  | spawnPush
  | pushAttempt
  | save
deriving DecidableEq

/-- The classification events of the loop, in iteration order. -/
def classifyEvents (games : List Game) : List Event :=
  games.map (fun g => Event.classifyGame g.id)

/-- Admissible completed executions of one `getUserTurnStatus` call whose
`newTurnGames` is nonempty (for a user with a registered device).  The
main thread classifies every game, spawns the notification goroutine
with `go`, and then calls `saveStorage()`; Go gives no ordering between
the spawned goroutine's push attempt and the statements following `go`,
so the attempt may interleave before or after the main thread's save,
but never before the spawn. -/
def isExecTrace (games : List Game) (t : List Event) : Prop :=
  t = classifyEvents games ++ [Event.spawnPush, Event.pushAttempt, Event.save] ∨
  t = classifyEvents games ++ [Event.spawnPush, Event.save, Event.pushAttempt]

/- ------------------------------------------------------------------ -/
/- Theorems                                                            -/
/- ------------------------------------------------------------------ -/

theorem lookupA_setA {α β : Type} [DecidableEq α]
    (l : List (α × β)) (k : α) (v : β) (a : α) :
    lookupA (setA l k v) a = if a = k then some v else lookupA l a := by
  induction l with
  | nil => simp [setA, lookupA]
  | cons p rest ih =>
      obtain ⟨k', v'⟩ := p
      by_cases hk : k' = k
      · subst hk
        by_cases ha : a = k' <;> simp [setA, lookupA, ha]
      · by_cases ha : a = k'
        · subst ha
          simp [setA, lookupA, hk]
        · simp [setA, lookupA, hk, ha, ih]

theorem isNewTurn_eq_true_iff (mv : Moves) (u : String) (g : Int) (cm : Int) :
    isNewTurn mv u g cm = true ↔
      lookupGame mv u g = none ∨ ∃ m, lookupGame mv u g = some m ∧ m < cm := by
  unfold isNewTurn lookupGame
  cases h : lookupA mv u with
  | none => simp
  | some um =>
      cases h2 : lookupA um g with
      | none => simp [h2]
      | some lm => simp [h2]

theorem isNewTurn_eq_false_iff (mv : Moves) (u : String) (g : Int) (cm : Int) :
    isNewTurn mv u g cm = false ↔ ∃ m, lookupGame mv u g = some m ∧ cm ≤ m := by
  unfold isNewTurn lookupGame
  cases h : lookupA mv u with
  | none => simp
  | some um =>
      cases h2 : lookupA um g with
      | none => simp [h2]
      | some lm => simp [h2, not_lt]

theorem lookupGame_update (mv : Moves) (u : String) (g : Int) (v : Int)
    (u' : String) (g' : Int) :
    lookupGame (updateStoredMove mv u g v) u' g' =
      if u' = u ∧ g' = g then some v else lookupGame mv u' g' := by
  unfold updateStoredMove lookupGame
  cases h : lookupA mv u with
  | none =>
      by_cases hu : u' = u
      · subst hu
        by_cases hg : g' = g <;> simp [lookupA_setA, lookupA, h, hg]
      · simp [lookupA_setA, hu]
  | some um =>
      by_cases hu : u' = u
      · subst hu
        by_cases hg : g' = g <;> simp [lookupA_setA, h, hg]
      · simp [lookupA_setA, hu]

/-- C1: single-game classification: `NotYourTurn` (no mutation) when the
current player differs from the viewer; `YourTurnNew` when they match and
no marker exists (any timestamp, including 0) or the incoming timestamp
strictly exceeds the marker; `YourTurnOld` when they match and the
incoming timestamp is at most the marker. -/
theorem claim_C1_classify_single_game (uid : Int) (uidStr : String)
    (mv : Moves) (game : Game) :
    (game.json.clock.currentPlayer ≠ uid →
       classifyGames uid uidStr [game] mv = (⟨[game.id], [], []⟩, mv, [])) ∧
    (game.json.clock.currentPlayer = uid →
       lookupGame mv uidStr game.id = none →
       classifyGames uid uidStr [game] mv =
         (⟨[], [game.id], []⟩,
          updateStoredMove mv uidStr game.id game.json.clock.lastMove, [game])) ∧
    (∀ m : Int, game.json.clock.currentPlayer = uid →
       lookupGame mv uidStr game.id = some m →
       m < game.json.clock.lastMove →
       classifyGames uid uidStr [game] mv =
         (⟨[], [game.id], []⟩,
          updateStoredMove mv uidStr game.id game.json.clock.lastMove, [game])) ∧
    (∀ m : Int, game.json.clock.currentPlayer = uid →
       lookupGame mv uidStr game.id = some m →
       game.json.clock.lastMove ≤ m →
       classifyGames uid uidStr [game] mv = (⟨[], [], [game.id]⟩, mv, [])) := by
  refine ⟨?_, ?_, ?_, ?_⟩
  · intro hne
    simp [classifyGames, hne]
  · intro heq hnone
    have hnew : isNewTurn mv uidStr game.id game.json.clock.lastMove = true :=
      (isNewTurn_eq_true_iff _ _ _ _).mpr (Or.inl hnone)
    simp [classifyGames, heq, hnew]
  · intro m heq hsome hlt
    have hnew : isNewTurn mv uidStr game.id game.json.clock.lastMove = true :=
      (isNewTurn_eq_true_iff _ _ _ _).mpr (Or.inr ⟨m, hsome, hlt⟩)
    simp [classifyGames, heq, hnew]
  · intro m heq hsome hle
    have hold : isNewTurn mv uidStr game.id game.json.clock.lastMove = false :=
      (isNewTurn_eq_false_iff _ _ _ _).mpr ⟨m, hsome, hle⟩
    simp [classifyGames, heq, hold]

/-- Witness for C1 at concrete inputs exercising all four branches. -/
theorem claim_C1_witness :
    (classifyGames 5 "5" [⟨7, "g", ⟨⟨6, 100⟩⟩⟩] [] = (⟨[7], [], []⟩, [], []) ∧
     classifyGames 5 "5" [⟨7, "g", ⟨⟨5, 0⟩⟩⟩] [] =
       (⟨[], [7], []⟩, updateStoredMove [] "5" 7 0, [⟨7, "g", ⟨⟨5, 0⟩⟩⟩])) ∧
    (classifyGames 5 "5" [⟨7, "g", ⟨⟨5, 100⟩⟩⟩] [("5", [(7, 50)])] =
       (⟨[], [7], []⟩, updateStoredMove [("5", [(7, 50)])] "5" 7 100,
        [⟨7, "g", ⟨⟨5, 100⟩⟩⟩]) ∧
     classifyGames 5 "5" [⟨7, "g", ⟨⟨5, 50⟩⟩⟩] [("5", [(7, 50)])] =
       (⟨[], [], [7]⟩, [("5", [(7, 50)])], [])) :=
  ⟨⟨(claim_C1_classify_single_game 5 "5" [] ⟨7, "g", ⟨⟨6, 100⟩⟩⟩).1 (by decide),
    (claim_C1_classify_single_game 5 "5" [] ⟨7, "g", ⟨⟨5, 0⟩⟩⟩).2.1 rfl rfl⟩,
   ⟨(claim_C1_classify_single_game 5 "5" [("5", [(7, 50)])]
       ⟨7, "g", ⟨⟨5, 100⟩⟩⟩).2.2.1 50 rfl rfl (by decide),
    (claim_C1_classify_single_game 5 "5" [("5", [(7, 50)])]
       ⟨7, "g", ⟨⟨5, 50⟩⟩⟩).2.2.2 50 rfl rfl (by decide)⟩⟩

/-- Evolution of the moves map across one classification run: each
(user, game) marker is either untouched, or it belongs to the evaluated
user, the game was put in `yourTurnNew`, and the marker strictly
increased (or was created). -/
theorem classifyGames_marker_evolution (uid : Int) (uidStr : String) :
    ∀ (games : List Game) (mv : Moves) (u : String) (g : Int),
      lookupGame (classifyGames uid uidStr games mv).2.1 u g = lookupGame mv u g ∨
      (u = uidStr ∧ g ∈ (classifyGames uid uidStr games mv).1.yourTurnNew ∧
       ∃ m2, lookupGame (classifyGames uid uidStr games mv).2.1 u g = some m2 ∧
         ∀ m, lookupGame mv u g = some m → m < m2) := by
  intro games
  induction games with
  | nil => intro mv u g; exact Or.inl rfl
  | cons game rest ih =>
      intro mv u g
      by_cases hcp : game.json.clock.currentPlayer = uid
      · cases hnew : isNewTurn mv uidStr game.id game.json.clock.lastMove with
        | false =>
            simp only [classifyGames, hcp, if_true, hnew, Bool.false_eq_true,
              if_false, eq_self_iff_true]
            rcases ih mv u g with hsame | ⟨hu, hmem, m2, hm2, hlt⟩
            · exact Or.inl hsame
            · exact Or.inr ⟨hu, hmem, m2, hm2, hlt⟩
        | true =>
            simp only [classifyGames, hcp, if_true, hnew, eq_self_iff_true]
            set mv2 := updateStoredMove mv uidStr game.id game.json.clock.lastMove with hmv2
            have hup : ∀ (u' : String) (g' : Int),
                lookupGame mv2 u' g' =
                  if u' = uidStr ∧ g' = game.id then some game.json.clock.lastMove
                  else lookupGame mv u' g' := fun u' g' =>
              lookupGame_update mv uidStr game.id game.json.clock.lastMove u' g'
            have hlt_old : ∀ m, lookupGame mv uidStr game.id = some m →
                m < game.json.clock.lastMove := by
              intro m hm
              rcases (isNewTurn_eq_true_iff mv uidStr game.id
                  game.json.clock.lastMove).mp hnew with hnone | ⟨m', hm', hm'lt⟩
              · rw [hm] at hnone; exact absurd hnone (by simp)
              · rw [hm] at hm'
                exact (Option.some_inj.mp hm') ▸ hm'lt
            rcases ih mv2 u g with hsame | ⟨hu, hmem, m2, hm2, hlt⟩
            · by_cases hug : u = uidStr ∧ g = game.id
              · refine Or.inr ⟨hug.1, ?_, game.json.clock.lastMove, ?_, ?_⟩
                · simp [hug.2]
                · rw [hsame, hup u g, if_pos hug]
                · intro m hm
                  exact hlt_old m (hug.1 ▸ hug.2 ▸ hm)
              · left
                rw [hsame, hup u g, if_neg hug]
            · refine Or.inr ⟨hu, by simp [hmem], m2, hm2, ?_⟩
              intro m hm
              by_cases hug : u = uidStr ∧ g = game.id
              · have h1 : m < game.json.clock.lastMove :=
                  hlt_old m (hug.1 ▸ hug.2 ▸ hm)
                have h2 : game.json.clock.lastMove < m2 := by
                  apply hlt
                  rw [hup u g, if_pos hug]
                exact h1.trans h2
              · apply hlt
                rw [hup u g, if_neg hug]
                exact hm
      · simp only [classifyGames, hcp, if_false, eq_self_iff_true]
        rcases ih mv u g with hsame | ⟨hu, hmem, m2, hm2, hlt⟩
        · exact Or.inl hsame
        · exact Or.inr ⟨hu, hmem, m2, hm2, hlt⟩

/-- C2: a stored move marker is created on first observation and is
monotonically non-decreasing: across an evaluation it is untouched, or it
belongs to the evaluated user, the game was classified `YourTurnNew`, and
any previous value was strictly smaller; no other operation
(registration, push dispatch) touches the moves map. -/
theorem claim_C2_marker_invariant :
    (∀ (uid : Int) (fetch : Except String (List Game)) (st : MoveStorage)
       (u : String) (g : Int),
       lookupGame (getUserTurnStatus uid fetch st).storage.moves u g =
         lookupGame st.moves u g ∨
       (u = toString uid ∧
        (∃ s, (getUserTurnStatus uid fetch st).status = .ok s ∧ g ∈ s.yourTurnNew) ∧
        ∃ m2, lookupGame (getUserTurnStatus uid fetch st).storage.moves u g = some m2 ∧
          ∀ m, lookupGame st.moves u g = some m → m < m2)) ∧
    (∀ (parsed : Option DeviceRegistration) (st : MoveStorage),
       (registerDevice parsed st).2.moves = st.moves) ∧
    (∀ (apnsReady : Bool) (env : String) (now : Int) (res : PushResult)
       (uid : String) (games : List Game) (st : MoveStorage),
       (sendConsolidatedPushNotification apnsReady env now res uid games st).2.moves =
         st.moves) := by
  refine ⟨?_, ?_, ?_⟩
  · intro uid fetch st u g
    cases fetch with
    | error e => exact Or.inl rfl
    | ok games =>
        rcases classifyGames_marker_evolution uid (toString uid) games st.moves u g with
          hsame | ⟨hu, hmem, m2, hm2, hlt⟩
        · exact Or.inl hsame
        · exact Or.inr ⟨hu,
            ⟨(classifyGames uid (toString uid) games st.moves).1, rfl, hmem⟩,
            m2, hm2, hlt⟩
  · intro parsed st
    cases parsed with
    | none => rfl
    | some reg =>
        by_cases h : reg.userID = "" ∨ reg.deviceToken = "" <;>
          simp [registerDevice, h]
  · intro a env now res uid games st
    by_cases ha : a = false
    · simp [sendConsolidatedPushNotification, ha]
    · cases hl : lookupA st.deviceTokens uid <;> cases games <;> cases res <;>
        simp [sendConsolidatedPushNotification, ha, hl]

/-- Witness for C2 at a concrete evaluation. -/
theorem claim_C2_witness :
    lookupGame (getUserTurnStatus 42 (.ok [⟨7, "g", ⟨⟨42, 1000⟩⟩⟩])
        initialStorage).storage.moves "42" 7 =
      lookupGame initialStorage.moves "42" 7 ∨
    ("42" = toString (42 : Int) ∧
     (∃ s, (getUserTurnStatus 42 (.ok [⟨7, "g", ⟨⟨42, 1000⟩⟩⟩])
         initialStorage).status = .ok s ∧ 7 ∈ s.yourTurnNew) ∧
     ∃ m2, lookupGame (getUserTurnStatus 42 (.ok [⟨7, "g", ⟨⟨42, 1000⟩⟩⟩])
         initialStorage).storage.moves "42" 7 = some m2 ∧
       ∀ m, lookupGame initialStorage.moves "42" 7 = some m → m < m2) :=
  claim_C2_marker_invariant.1 42 (.ok [⟨7, "g", ⟨⟨42, 1000⟩⟩⟩]) initialStorage "42" 7

/-- C4: `lastNotificationTime` is written exactly when the transport
reports the notification as sent: any non-sent outcome, or a dispatch
that never reaches the transport, leaves the whole storage unchanged; a
sent dispatch sets the user's entry to the current time; and neither
evaluation nor registration touches the map. -/
theorem claim_C4_last_notification_update :
    (∀ (apnsReady : Bool) (env : String) (now : Int) (res : PushResult)
       (uid : String) (games : List Game) (st : MoveStorage),
       res ≠ PushResult.sent →
       (sendConsolidatedPushNotification apnsReady env now res uid games st).2 = st) ∧
    (∀ (apnsReady : Bool) (env : String) (now : Int) (res : PushResult)
       (uid : String) (games : List Game) (st : MoveStorage),
       (sendConsolidatedPushNotification apnsReady env now res uid games st).1 = none →
       (sendConsolidatedPushNotification apnsReady env now res uid games st).2 = st) ∧
    (∀ (apnsReady : Bool) (env : String) (now : Int) (uid : String)
       (games : List Game) (st : MoveStorage) (n : NotificationPayload),
       (sendConsolidatedPushNotification apnsReady env now PushResult.sent
           uid games st).1 = some (n, PushResult.sent) →
       (sendConsolidatedPushNotification apnsReady env now PushResult.sent
           uid games st).2 =
         ⟨st.moves, st.deviceTokens, setA st.lastNotificationTime uid now⟩) ∧
    (∀ (uid : Int) (fetch : Except String (List Game)) (st : MoveStorage),
       (getUserTurnStatus uid fetch st).storage.lastNotificationTime =
         st.lastNotificationTime) ∧
    (∀ (parsed : Option DeviceRegistration) (st : MoveStorage),
       (registerDevice parsed st).2.lastNotificationTime =
         st.lastNotificationTime) := by
  refine ⟨?_, ?_, ?_, ?_, ?_⟩
  · intro a env now res uid games st hres
    by_cases ha : a = false
    · simp [sendConsolidatedPushNotification, ha]
    · cases hl : lookupA st.deviceTokens uid <;> cases games <;> cases res <;>
        simp_all [sendConsolidatedPushNotification, ha, hl]
  · intro a env now res uid games st hnone
    by_cases ha : a = false
    · simp [sendConsolidatedPushNotification, ha]
    · cases hl : lookupA st.deviceTokens uid <;> cases games <;> cases res <;>
        simp_all [sendConsolidatedPushNotification, ha, hl]
  · intro a env now uid games st n hsome
    by_cases ha : a = false
    · simp [sendConsolidatedPushNotification, ha] at hsome
    · cases hl : lookupA st.deviceTokens uid <;> cases games <;>
        simp_all [sendConsolidatedPushNotification, ha, hl]
  · intro uid fetch st
    cases fetch <;> rfl
  · intro parsed st
    cases parsed with
    | none => rfl
    | some reg =>
        by_cases h : reg.userID = "" ∨ reg.deviceToken = "" <;>
          simp [registerDevice, h]

/-- Witness for C4: a failed dispatch leaves storage unchanged, a sent
dispatch records the time. -/
theorem claim_C4_witness :
    (sendConsolidatedPushNotification true "" 99 PushResult.transportError "42"
        [⟨7, "g", ⟨⟨42, 1000⟩⟩⟩] ⟨[], [("42", "tok")], []⟩).2 =
      ⟨[], [("42", "tok")], []⟩ ∧
    (sendConsolidatedPushNotification true "" 99 PushResult.sent "42"
        [⟨7, "g", ⟨⟨42, 1000⟩⟩⟩] ⟨[], [("42", "tok")], []⟩).2 =
      ⟨[], [("42", "tok")], setA [] "42" 99⟩ :=
  ⟨claim_C4_last_notification_update.1 true "" 99 PushResult.transportError "42"
      [⟨7, "g", ⟨⟨42, 1000⟩⟩⟩] ⟨[], [("42", "tok")], []⟩ (by decide),
   claim_C4_last_notification_update.2.2.1 true "" 99 "42"
      [⟨7, "g", ⟨⟨42, 1000⟩⟩⟩] ⟨[], [("42", "tok")], []⟩
      ⟨"tok", "online-go-server-push-notification", "Your turn in Go!",
       "It\x27s your turn in: g", 1, "default", "https://online-go.com/game/7",
       "ogs://game/7", 7, "open_game", "g", "game_turn"⟩ rfl⟩

/-- Markers never decrease and are never deleted by a classification run. -/
theorem classifyGames_mono (uid : Int) (uidStr : String) (games : List Game)
    (mv : Moves) (u : String) (g : Int) (m : Int)
    (hm : lookupGame mv u g = some m) :
    ∃ m2, lookupGame (classifyGames uid uidStr games mv).2.1 u g = some m2 ∧
      m ≤ m2 := by
  rcases classifyGames_marker_evolution uid uidStr games mv u g with
    hsame | ⟨_, _, m2, hm2, hlt⟩
  · exact ⟨m, by rw [hsame, hm], le_refl m⟩
  · exact ⟨m2, hm2, (hlt m hm).le⟩

/-- After one classification run, every game of the snapshot whose turn
belongs to the evaluated user has a stored marker at least its move
timestamp. -/
theorem classifyGames_inv_after (uid : Int) (uidStr : String) :
    ∀ (games : List Game) (mv : Moves) (game : Game),
      game ∈ games → game.json.clock.currentPlayer = uid →
      ∃ m, lookupGame (classifyGames uid uidStr games mv).2.1 uidStr game.id =
          some m ∧ game.json.clock.lastMove ≤ m := by
  intro games
  induction games with
  | nil => intro mv game h; exact absurd h (List.not_mem_nil _)
  | cons g0 rest ih =>
      intro mv game hmem hcp
      rcases List.mem_cons.mp hmem with heq | hmem2
      · subst heq
        cases hnew : isNewTurn mv uidStr game.id game.json.clock.lastMove with
        | true =>
            simp only [classifyGames, hcp, hnew, if_true, eq_self_iff_true]
            have hbase : lookupGame
                (updateStoredMove mv uidStr game.id game.json.clock.lastMove)
                uidStr game.id = some game.json.clock.lastMove := by
              rw [lookupGame_update]; simp
            obtain ⟨m2, hm2, hle⟩ :=
              classifyGames_mono uid uidStr rest _ uidStr game.id _ hbase
            exact ⟨m2, hm2, hle⟩
        | false =>
            obtain ⟨m, hm, hle⟩ := (isNewTurn_eq_false_iff mv uidStr game.id
              game.json.clock.lastMove).mp hnew
            simp only [classifyGames, hcp, hnew, Bool.false_eq_true, if_false,
              if_true, eq_self_iff_true]
            obtain ⟨m2, hm2, hle2⟩ :=
              classifyGames_mono uid uidStr rest mv uidStr game.id m hm
            exact ⟨m2, hm2, hle.trans hle2⟩
      · by_cases hcp0 : g0.json.clock.currentPlayer = uid
        · cases hnew : isNewTurn mv uidStr g0.id g0.json.clock.lastMove with
          | true =>
              simp only [classifyGames, hcp0, hnew, if_true, eq_self_iff_true]
              exact ih _ game hmem2 hcp
          | false =>
              simp only [classifyGames, hcp0, hnew, Bool.false_eq_true, if_false,
                if_true, eq_self_iff_true]
              exact ih mv game hmem2 hcp
        · simp only [classifyGames, hcp0, if_false, eq_self_iff_true]
          exact ih mv game hmem2 hcp

/-- A classification run over a snapshot whose markers are already
up-to-date classifies nothing as new, changes no state, produces no
games for the dispatcher, and puts every own-turn game in
`yourTurnOld`. -/
theorem classifyGames_stable (uid : Int) (uidStr : String) :
    ∀ (games : List Game) (mv : Moves),
      (∀ game ∈ games, game.json.clock.currentPlayer = uid →
         ∃ m, lookupGame mv uidStr game.id = some m ∧
           game.json.clock.lastMove ≤ m) →
      (classifyGames uid uidStr games mv).1.yourTurnNew = [] ∧
      (classifyGames uid uidStr games mv).2.1 = mv ∧
      (classifyGames uid uidStr games mv).2.2 = [] ∧
      ∀ game ∈ games, game.json.clock.currentPlayer = uid →
        game.id ∈ (classifyGames uid uidStr games mv).1.yourTurnOld := by
  intro games
  induction games with
  | nil =>
      intro mv _
      exact ⟨rfl, rfl, rfl, fun game h => absurd h (List.not_mem_nil _)⟩
  | cons g0 rest ih =>
      intro mv hinv
      have hrest := ih mv (fun game h hcp =>
        hinv game (List.mem_cons_of_mem _ h) hcp)
      by_cases hcp0 : g0.json.clock.currentPlayer = uid
      · have hnew : isNewTurn mv uidStr g0.id g0.json.clock.lastMove = false := by
          obtain ⟨m, hm, hle⟩ := hinv g0 (List.mem_cons_self _ _) hcp0
          exact (isNewTurn_eq_false_iff _ _ _ _).mpr ⟨m, hm, hle⟩
        simp only [classifyGames, hcp0, hnew, Bool.false_eq_true, if_false,
          if_true, eq_self_iff_true]
        refine ⟨hrest.1, hrest.2.1, hrest.2.2.1, ?_⟩
        intro game hmem hcp
        rcases List.mem_cons.mp hmem with heq | hmem2
        · subst heq
          exact List.mem_cons_self _ _
        · exact List.mem_cons_of_mem _ (hrest.2.2.2 game hmem2 hcp)
      · simp only [classifyGames, hcp0, if_false, eq_self_iff_true]
        refine ⟨hrest.1, hrest.2.1, hrest.2.2.1, ?_⟩
        intro game hmem hcp
        rcases List.mem_cons.mp hmem with heq | hmem2
        · subst heq
          exact absurd hcp hcp0
        · exact hrest.2.2.2 game hmem2 hcp

/-- A game id classified `YourTurnNew` comes from a snapshot game whose
turn belongs to the evaluated user. -/
theorem classifyGames_new_from_games (uid : Int) (uidStr : String) :
    ∀ (games : List Game) (mv : Moves) (g : Int),
      g ∈ (classifyGames uid uidStr games mv).1.yourTurnNew →
      ∃ game, game ∈ games ∧ game.id = g ∧
        game.json.clock.currentPlayer = uid := by
  intro games
  induction games with
  | nil => intro mv g h; exact absurd h (List.not_mem_nil _)
  | cons g0 rest ih =>
      intro mv g hmem
      by_cases hcp0 : g0.json.clock.currentPlayer = uid
      · cases hnew : isNewTurn mv uidStr g0.id g0.json.clock.lastMove with
        | true =>
            simp only [classifyGames, hcp0, hnew, if_true, eq_self_iff_true] at hmem
            rcases List.mem_cons.mp hmem with heq | hmem2
            · exact ⟨g0, List.mem_cons_self _ _, heq.symm, hcp0⟩
            · obtain ⟨game, h1, h2, h3⟩ := ih _ g hmem2
              exact ⟨game, List.mem_cons_of_mem _ h1, h2, h3⟩
        | false =>
            simp only [classifyGames, hcp0, hnew, Bool.false_eq_true, if_false,
              if_true, eq_self_iff_true] at hmem
            obtain ⟨game, h1, h2, h3⟩ := ih mv g hmem
            exact ⟨game, List.mem_cons_of_mem _ h1, h2, h3⟩
      · simp only [classifyGames, hcp0, if_false, eq_self_iff_true] at hmem
        obtain ⟨game, h1, h2, h3⟩ := ih mv g hmem
        exact ⟨game, List.mem_cons_of_mem _ h1, h2, h3⟩

/-- C3: re-evaluating the same unchanged snapshot immediately after an
evaluation classifies every previously-new game as `YourTurnOld`,
classifies nothing as new, leaves storage unchanged, and hands the
dispatcher nothing (no second push). -/
theorem claim_C3_idempotent_recheck (uid : Int) (games : List Game)
    (st : MoveStorage) (s1 s2 : TurnStatus)
    (h1 : (getUserTurnStatus uid (.ok games) st).status = .ok s1)
    (h2 : (getUserTurnStatus uid (.ok games)
            (getUserTurnStatus uid (.ok games) st).storage).status = .ok s2) :
    (∀ g ∈ s1.yourTurnNew, g ∈ s2.yourTurnOld) ∧
    s2.yourTurnNew = [] ∧
    (getUserTurnStatus uid (.ok games)
        (getUserTurnStatus uid (.ok games) st).storage).storage =
      (getUserTurnStatus uid (.ok games) st).storage ∧
    (getUserTurnStatus uid (.ok games)
        (getUserTurnStatus uid (.ok games) st).storage).newTurnGames = [] := by
  have e1 : (classifyGames uid (toString uid) games st.moves).1 = s1 :=
    Except.ok.inj h1
  have e2 : (classifyGames uid (toString uid) games
      (classifyGames uid (toString uid) games st.moves).2.1).1 = s2 :=
    Except.ok.inj h2
  subst e1
  subst e2
  have hinv : ∀ game ∈ games, game.json.clock.currentPlayer = uid →
      ∃ m, lookupGame (classifyGames uid (toString uid) games st.moves).2.1
          (toString uid) game.id = some m ∧ game.json.clock.lastMove ≤ m :=
    fun game h hcp =>
      classifyGames_inv_after uid (toString uid) games st.moves game h hcp
  have hstab := classifyGames_stable uid (toString uid) games
    (classifyGames uid (toString uid) games st.moves).2.1 hinv
  refine ⟨?_, hstab.1, ?_, hstab.2.2.1⟩
  · intro g hg
    obtain ⟨game, hmemg, hid, hcp⟩ :=
      classifyGames_new_from_games uid (toString uid) games st.moves g hg
    exact hid ▸ hstab.2.2.2 game hmemg hcp
  · show (⟨(classifyGames uid (toString uid) games
        (classifyGames uid (toString uid) games st.moves).2.1).2.1,
        st.deviceTokens, st.lastNotificationTime⟩ : MoveStorage) = _
    rw [hstab.2.1]
    rfl

/-- Witness for C3: the concrete scenario of the spec (user 42, game 7,
move 1000): first evaluation yields `your_turn_new=[7]` and marker 1000,
the re-evaluation yields `your_turn_old=[7]`, unchanged storage, and no
second push. -/
theorem claim_C3_witness :
    (getUserTurnStatus 42 (.ok [⟨7, "Test Game", ⟨⟨42, 1000⟩⟩⟩])
        initialStorage).status = .ok ⟨[], [7], []⟩ ∧
    lookupGame (getUserTurnStatus 42 (.ok [⟨7, "Test Game", ⟨⟨42, 1000⟩⟩⟩])
        initialStorage).storage.moves "42" 7 = some 1000 ∧
    (getUserTurnStatus 42 (.ok [⟨7, "Test Game", ⟨⟨42, 1000⟩⟩⟩])
        (getUserTurnStatus 42 (.ok [⟨7, "Test Game", ⟨⟨42, 1000⟩⟩⟩])
          initialStorage).storage).status = .ok ⟨[], [], [7]⟩ ∧
    7 ∈ (⟨[], [], [7]⟩ : TurnStatus).yourTurnOld ∧
    (getUserTurnStatus 42 (.ok [⟨7, "Test Game", ⟨⟨42, 1000⟩⟩⟩])
        (getUserTurnStatus 42 (.ok [⟨7, "Test Game", ⟨⟨42, 1000⟩⟩⟩])
          initialStorage).storage).storage =
      (getUserTurnStatus 42 (.ok [⟨7, "Test Game", ⟨⟨42, 1000⟩⟩⟩])
        initialStorage).storage ∧
    (getUserTurnStatus 42 (.ok [⟨7, "Test Game", ⟨⟨42, 1000⟩⟩⟩])
        (getUserTurnStatus 42 (.ok [⟨7, "Test Game", ⟨⟨42, 1000⟩⟩⟩])
          initialStorage).storage).newTurnGames = [] := by
  have h := claim_C3_idempotent_recheck 42 [⟨7, "Test Game", ⟨⟨42, 1000⟩⟩⟩]
    initialStorage ⟨[], [7], []⟩ ⟨[], [], [7]⟩ rfl rfl
  exact ⟨rfl, rfl, rfl, h.1 7 (by decide), h.2.2.1, h.2.2.2⟩

/-- A sweep step for a user whose fetch fails leaves the state exactly
as it was. -/
theorem processUser_fetch_error (fetches : String → Except String (List Game))
    (u : String) (e : String) (st : MoveStorage) (h : fetches u = .error e) :
    processUser fetches u st = st := by
  unfold processUser
  cases hto : u.toInt? with
  | none => rfl
  | some n => rw [h]; rfl

/-- C7: a failed upstream fetch makes the evaluation return the error
with no marker commits, no notification hand-off, and unchanged storage;
and within a full sweep such a user is skipped, leaving the sweep
identical to one over the remaining users. -/
theorem claim_C7_fetch_failure_isolated :
    (∀ (uid : Int) (e : String) (st : MoveStorage),
       getUserTurnStatus uid (.error e) st = ⟨.error e, st, []⟩) ∧
    (∀ (fetches : String → Except String (List Game)) (pre post : List String)
       (u e : String) (st : MoveStorage),
       fetches u = .error e →
       checkUsersList fetches (pre ++ u :: post) st =
         checkUsersList fetches (pre ++ post) st) := by
  refine ⟨fun uid e st => rfl, ?_⟩
  intro fetches pre post u e st h
  induction pre generalizing st with
  | nil =>
      show checkUsersList fetches post (processUser fetches u st) =
        checkUsersList fetches post st
      rw [processUser_fetch_error fetches u e st h]
  | cons p pre ih =>
      show checkUsersList fetches (pre ++ u :: post) (processUser fetches p st) =
        checkUsersList fetches (pre ++ post) (processUser fetches p st)
      exact ih _

/-- Witness for C7: a concrete failing fetch and a concrete sweep with
the failing user skipped. -/
theorem claim_C7_witness :
    getUserTurnStatus 42 (.error "fetch failed") initialStorage =
      ⟨.error "fetch failed", initialStorage, []⟩ ∧
    checkUsersList (fun _ => .error "fetch failed") (["1"] ++ "42" :: ["2"])
        initialStorage =
      checkUsersList (fun _ => .error "fetch failed") (["1"] ++ ["2"])
        initialStorage :=
  ⟨claim_C7_fetch_failure_isolated.1 42 "fetch failed" initialStorage,
   claim_C7_fetch_failure_isolated.2 (fun _ => .error "fetch failed") ["1"] ["2"]
     "42" "fetch failed" initialStorage rfl⟩

/-- C8: a legacy file holding only the move map loads with the moves and
empty (present) device-token and notification-time maps, whether the
new-format parse returns an all-nil struct or fails outright; a file
that parses in neither format yields entirely empty state instead of a
fatal error. -/
theorem claim_C8_schema_upgrade_and_corrupt :
    (∀ mv : Moves,
       loadStorage (.file (some ⟨none, none, none⟩) (some mv)) = ⟨mv, [], []⟩) ∧
    (∀ mv : Moves, loadStorage (.file none (some mv)) = ⟨mv, [], []⟩) ∧
    loadStorage (.file none none) = ⟨[], [], []⟩ :=
  ⟨fun mv => rfl, fun mv => rfl, rfl⟩

theorem goAppend_ne_none {α : Type} (s : Option (List α)) (x : α) :
    goAppend s x ≠ none := by
  cases s <;> simp [goAppend]

theorem goAppend_ne_some_nil {α : Type} (s : Option (List α)) (x : α) :
    goAppend s x ≠ some [] := by
  cases s <;> simp [goAppend]

/-- The reverse-lookup fold yields the nil slice iff it started nil and
no entry matched. -/
theorem goFold_eq_none_iff (q : String) :
    ∀ (l : List (String × String)) (acc : Option (List String)),
      l.foldl (fun acc p => if p.2 = q then goAppend acc p.1 else acc) acc =
          none ↔
        acc = none ∧ ∀ p ∈ l, p.2 ≠ q := by
  intro l
  induction l with
  | nil => intro acc; simp
  | cons p rest ih =>
      intro acc
      by_cases hp : p.2 = q
      · simp [List.foldl_cons, hp, ih, goAppend_ne_none]
      · simp [List.foldl_cons, hp, ih]

/-- The reverse-lookup fold never yields a non-nil empty slice. -/
theorem goFold_ne_some_nil (q : String) :
    ∀ (l : List (String × String)) (acc : Option (List String)),
      acc ≠ some [] →
      l.foldl (fun acc p => if p.2 = q then goAppend acc p.1 else acc) acc ≠
        some [] := by
  intro l
  induction l with
  | nil => intro acc h; simpa using h
  | cons p rest ih =>
      intro acc h
      show rest.foldl _ (if p.2 = q then goAppend acc p.1 else acc) ≠ some []
      apply ih
      by_cases hp : p.2 = q
      · simpa [hp] using goAppend_ne_some_nil acc p.1
      · simpa [hp] using h

/-- C10: the reverse lookup returns `user_ids` as the nil slice
(serialized as JSON null) exactly when no registered user maps to the
requested token; it is a (never empty) array exactly when at least one
user matches. -/
theorem claim_C10_nil_user_ids (st : MoveStorage) (tok : String)
    (h : tok ≠ "") :
    ∃ resp : DeviceTokenUsers,
      getUsersByDeviceToken tok st = .ok resp ∧
      (resp.userIDs = none ↔ ∀ p ∈ st.deviceTokens, p.2 ≠ tok) ∧
      (resp.userIDs ≠ none ↔ ∃ p ∈ st.deviceTokens, p.2 = tok) ∧
      resp.userIDs ≠ some [] ∧
      (resp.userIDs = none → userIDsJSON resp.userIDs = "null") := by
  refine ⟨⟨tok, st.deviceTokens.foldl
      (fun acc p => if p.2 = tok then goAppend acc p.1 else acc) none⟩,
    ?_, ?_, ?_, ?_, ?_⟩
  · simp [getUsersByDeviceToken, h]
  · simpa using goFold_eq_none_iff tok st.deviceTokens none
  · have hiff := goFold_eq_none_iff tok st.deviceTokens none
    constructor
    · intro hne
      by_contra hex
      push_neg at hex
      exact hne (hiff.mpr ⟨rfl, hex⟩)
    · rintro ⟨p, hp, hpq⟩ hnone
      exact absurd hpq ((hiff.mp hnone).2 p hp)
  · exact goFold_ne_some_nil tok st.deviceTokens none (by simp)
  · intro h0
    rw [h0]
    rfl

/-- Witness for C10 at a concrete storage and token. -/
theorem claim_C10_witness :
    ∃ resp : DeviceTokenUsers,
      getUsersByDeviceToken "tok" ⟨[], [("42", "tok")], []⟩ = .ok resp ∧
      (resp.userIDs = none ↔
        ∀ p ∈ ([("42", "tok")] : List (String × String)), p.2 ≠ "tok") ∧
      (resp.userIDs ≠ none ↔
        ∃ p ∈ ([("42", "tok")] : List (String × String)), p.2 = "tok") ∧
      resp.userIDs ≠ some [] ∧
      (resp.userIDs = none → userIDsJSON resp.userIDs = "null") :=
  claim_C10_nil_user_ids ⟨[], [("42", "tok")], []⟩ "tok" (by decide)

/-- The single-game body ends with the game's name. -/
theorem notificationBody_single (env : String) (g : Game) :
    ∃ pre, notificationBody env [g] g = pre ++ g.name := by
  unfold notificationBody
  simp only [List.length_cons, List.length_nil, Nat.zero_add, if_pos]
  by_cases he : env ≠ "none"
  · rw [if_pos he]
    exact ⟨_, rfl⟩
  · rw [if_neg he]
    exact ⟨_, rfl⟩

/-- The multi-game body is the count text. -/
theorem notificationBody_multi (env : String) (games : List Game)
    (firstGame : Game) (h : games.length ≠ 1) :
    notificationBody env games firstGame =
      if env ≠ "none" then
        "[" ++ env ++ "] It\x27s your turn in " ++ toString games.length ++
          " games"
      else
        "It\x27s your turn in " ++ toString games.length ++ " games" := by
  unfold notificationBody
  rw [if_neg h]

/-- C6: for a nonempty newly-turned set and a registered device, exactly
one notification is handed to the transport; its badge is the number of
newly-turned games, its deep-link pair is built from the first game in
iteration order, a single-game body names that game, and a multi-game
body states the count and is independent of the game names. -/
theorem claim_C6_consolidated_push (env : String) (now : Int)
    (res : PushResult) (uid tok : String) (g : Game) (rest : List Game)
    (st : MoveStorage) (htok : lookupA st.deviceTokens uid = some tok) :
    ∃ n : NotificationPayload,
      (sendConsolidatedPushNotification true env now res uid (g :: rest) st).1 =
        some (n, res) ∧
      n.badge = (g :: rest).length ∧
      n.webURL = "https://online-go.com/game/" ++ toString g.id ∧
      n.appURL = "ogs://game/" ++ toString g.id ∧
      n.gameId = g.id ∧
      n.body = notificationBody (resolveEnvironment env) (g :: rest) g ∧
      (rest = [] → ∃ pre, n.body = pre ++ g.name) ∧
      (rest ≠ [] →
        (∃ pre post, n.body = pre ++ toString (g :: rest).length ++ post) ∧
        ∀ (g2 : Game) (rest2 : List Game), rest2.length = rest.length →
          notificationBody (resolveEnvironment env) (g2 :: rest2) g2 =
            notificationBody (resolveEnvironment env) (g :: rest) g) := by
  refine ⟨⟨tok, "online-go-server-push-notification", "Your turn in Go!",
    notificationBody (resolveEnvironment env) (g :: rest) g,
    (g :: rest).length, "default",
    "https://online-go.com/game/" ++ toString g.id,
    "ogs://game/" ++ toString g.id, g.id, "open_game", g.name, "game_turn"⟩,
    ?_, rfl, rfl, rfl, rfl, rfl, ?_, ?_⟩
  · cases res <;> simp [sendConsolidatedPushNotification, htok]
  · intro hrest
    subst hrest
    exact notificationBody_single (resolveEnvironment env) g
  · intro hrest
    have hlen : (g :: rest).length ≠ 1 := by
      simp only [List.length_cons, ne_eq, Nat.add_left_eq_self]
      exact fun h0 => hrest (List.length_eq_zero.mp h0)
    refine ⟨?_, ?_⟩
    · rw [notificationBody_multi _ _ _ hlen]
      by_cases he : resolveEnvironment env ≠ "none"
      · rw [if_pos he]
        exact ⟨_, " games", rfl⟩
      · rw [if_neg he]
        exact ⟨_, " games", rfl⟩
    · intro g2 rest2 hlen2
      have h2 : (g2 :: rest2).length ≠ 1 := by
        simp only [List.length_cons, ne_eq, Nat.add_left_eq_self, hlen2]
        exact fun h0 => hrest (List.length_eq_zero.mp h0)
      rw [notificationBody_multi _ _ _ h2, notificationBody_multi _ _ _ hlen]
      simp [List.length_cons, hlen2]

/-- Witness for C6: three newly-turned games produce one push with
badge 3. -/
theorem claim_C6_witness :
    ∃ n : NotificationPayload,
      (sendConsolidatedPushNotification true "" 99 PushResult.sent "42"
          [⟨1, "A", ⟨⟨42, 10⟩⟩⟩, ⟨2, "B", ⟨⟨42, 20⟩⟩⟩, ⟨3, "C", ⟨⟨42, 30⟩⟩⟩]
          ⟨[], [("42", "tok")], []⟩).1 = some (n, PushResult.sent) ∧
      n.badge = 3 := by
  obtain ⟨n, h1, h2, _⟩ := claim_C6_consolidated_push "" 99 PushResult.sent
    "42" "tok" ⟨1, "A", ⟨⟨42, 10⟩⟩⟩ [⟨2, "B", ⟨⟨42, 20⟩⟩⟩, ⟨3, "C", ⟨⟨42, 30⟩⟩⟩]
    ⟨[], [("42", "tok")], []⟩ rfl
  exact ⟨n, h1, h2⟩

theorem getElem?_triple (a b c e : Event) (k : Nat)
    (h : ([a, b, c] : List Event)[k]? = some e) :
    (k = 0 ∧ e = a) ∨ (k = 1 ∧ e = b) ∨ (k = 2 ∧ e = c) := by
  match k with
  | 0 => exact Or.inl ⟨rfl, (Option.some_inj.mp h).symm⟩
  | 1 => exact Or.inr (Or.inl ⟨rfl, (Option.some_inj.mp h).symm⟩)
  | 2 => exact Or.inr (Or.inr ⟨rfl, (Option.some_inj.mp h).symm⟩)
  | k + 3 => simp at h

/-- An index of an execution trace either falls in the classification
prefix (and holds a classify event) or addresses the tail. -/
theorem trace_index (games : List Game) (tail : List Event) (i : Nat)
    (e : Event) (h : (classifyEvents games ++ tail)[i]? = some e) :
    (i < games.length ∧ ∃ gid, e = Event.classifyGame gid) ∨
    (games.length ≤ i ∧ tail[i - games.length]? = some e) := by
  have hlen : (classifyEvents games).length = games.length := by
    simp [classifyEvents]
  by_cases hi : i < games.length
  · left
    refine ⟨hi, ?_⟩
    rw [List.getElem?_append_left (hlen ▸ hi)] at h
    rw [classifyEvents, List.getElem?_map] at h
    rcases Option.map_eq_some'.mp h with ⟨g, _, he⟩
    exact ⟨g.id, he.symm⟩
  · right
    have hge : games.length ≤ i := Nat.le_of_not_lt hi
    rw [List.getElem?_append_right (hlen ▸ hge), hlen] at h
    exact ⟨hge, h⟩

/-- C5, counterexample: it is not the case that in every admissible
execution the push attempt precedes the persistence of the markers: the
schedule where the main thread's `saveStorage()` runs before the spawned
goroutine's push attempt is admissible. -/
theorem claim_C5_counterexample :
    ¬ (∀ (games : List Game) (t : List Event), isExecTrace games t →
        (∀ (i j : Nat) (gid : Int), t[i]? = some (Event.classifyGame gid) →
          t[j]? = some Event.pushAttempt → i < j) ∧
        (∀ i j : Nat, t[i]? = some Event.pushAttempt →
          t[j]? = some Event.save → i < j)) := by
  intro h
  have h2 := (h [⟨7, "g", ⟨⟨42, 1000⟩⟩⟩]
    (classifyEvents [⟨7, "g", ⟨⟨42, 1000⟩⟩⟩] ++
      [Event.spawnPush, Event.save, Event.pushAttempt])
    (Or.inr rfl)).2 3 2 rfl rfl
  exact absurd h2 (by decide)

/-- C5, amended: in every admissible execution all classification (and
its marker commits) precedes the push attempt, and the main thread's
persistence follows the spawn of the notification task; but persistence
is concurrent with, not ordered after, the push attempt itself. -/
theorem claim_C5_amended (games : List Game) (t : List Event)
    (h : isExecTrace games t) :
    (∀ (i j : Nat) (gid : Int), t[i]? = some (Event.classifyGame gid) →
       t[j]? = some Event.pushAttempt → i < j) ∧
    (∀ i j : Nat, t[i]? = some Event.spawnPush → t[j]? = some Event.save →
       i < j) := by
  rcases h with h | h <;> subst h
  · constructor
    · intro i j gid hi hj
      rcases trace_index games _ i _ hi with ⟨hilt, _⟩ | ⟨_, htail⟩
      · rcases trace_index games _ j _ hj with ⟨_, gid2, heq⟩ | ⟨hjge, _⟩
        · simp at heq
        · exact lt_of_lt_of_le hilt hjge
      · rcases getElem?_triple _ _ _ _ _ htail with ⟨_, he⟩ | ⟨_, he⟩ | ⟨_, he⟩ <;>
          simp at he
    · intro i j hi hj
      rcases trace_index games _ i _ hi with ⟨_, gid2, heq⟩ | ⟨hige, htaili⟩
      · simp at heq
      · rcases trace_index games _ j _ hj with ⟨_, gid2, heq⟩ | ⟨hjge, htailj⟩
        · simp at heq
        · rcases getElem?_triple _ _ _ _ _ htaili with
            ⟨hk, _⟩ | ⟨_, he⟩ | ⟨_, he⟩
          · rcases getElem?_triple _ _ _ _ _ htailj with
              ⟨_, he2⟩ | ⟨_, he2⟩ | ⟨hk2, _⟩
            · simp at he2
            · simp at he2
            · omega
          · simp at he
          · simp at he
  · constructor
    · intro i j gid hi hj
      rcases trace_index games _ i _ hi with ⟨hilt, _⟩ | ⟨_, htail⟩
      · rcases trace_index games _ j _ hj with ⟨_, gid2, heq⟩ | ⟨hjge, _⟩
        · simp at heq
        · exact lt_of_lt_of_le hilt hjge
      · rcases getElem?_triple _ _ _ _ _ htail with ⟨_, he⟩ | ⟨_, he⟩ | ⟨_, he⟩ <;>
          simp at he
    · intro i j hi hj
      rcases trace_index games _ i _ hi with ⟨_, gid2, heq⟩ | ⟨hige, htaili⟩
      · simp at heq
      · rcases trace_index games _ j _ hj with ⟨_, gid2, heq⟩ | ⟨hjge, htailj⟩
        · simp at heq
        · rcases getElem?_triple _ _ _ _ _ htaili with
            ⟨hk, _⟩ | ⟨_, he⟩ | ⟨_, he⟩
          · rcases getElem?_triple _ _ _ _ _ htailj with
              ⟨_, he2⟩ | ⟨hk2, _⟩ | ⟨_, he2⟩
            · simp at he2
            · omega
            · simp at he2
          · simp at he
          · simp at he

/-- Witness for the amended C5 at a concrete trace. -/
theorem claim_C5_amended_witness :
    isExecTrace [⟨7, "g", ⟨⟨42, 1000⟩⟩⟩]
      [Event.classifyGame 7, Event.spawnPush, Event.pushAttempt, Event.save] ∧
    (0 : Nat) < 2 ∧ (1 : Nat) < 3 := by
  have hex : isExecTrace [⟨7, "g", ⟨⟨42, 1000⟩⟩⟩]
      [Event.classifyGame 7, Event.spawnPush, Event.pushAttempt, Event.save] :=
    Or.inl rfl
  have h := claim_C5_amended _ _ hex
  exact ⟨hex, h.1 0 2 7 rfl rfl, h.2 1 3 rfl rfl⟩

/-- C9, counterexample: it is not the case that a stored device address
never appears in full in a response: querying the reverse-lookup
endpoint with a stored address echoes that address in the response
body. -/
theorem claim_C9_counterexample :
    ¬ (∀ (st : MoveStorage) (u tok : String),
        lookupA st.deviceTokens u = some tok →
        ∀ (q : String) (resp : DeviceTokenUsers),
          getUsersByDeviceToken q st = .ok resp →
          tok ∉ deviceTokenUsersStrings resp) := by
  intro h
  exact h ⟨[], [("42", "tokensecret")], []⟩ "42" "tokensecret" rfl
    "tokensecret" ⟨"tokensecret", some ["42"]⟩ rfl (by decide)

theorem goAppend_mem {α : Type} (acc : Option (List α)) (x s : α)
    (h : s ∈ (goAppend acc x).getD []) : s ∈ acc.getD [] ∨ s = x := by
  cases acc with
  | none => right; simpa [goAppend] using h
  | some l => simpa [goAppend] using h

/-- Every member of the reverse-lookup fold is either in the
accumulator or is the first component of some scanned entry. -/
theorem goFold_mem (q : String) :
    ∀ (l : List (String × String)) (acc : Option (List String)) (s : String),
      s ∈ (l.foldl (fun acc p =>
          if p.2 = q then goAppend acc p.1 else acc) acc).getD [] →
      s ∈ acc.getD [] ∨ ∃ u tok, (u, tok) ∈ l ∧ s = u := by
  intro l
  induction l with
  | nil => intro acc s h; exact Or.inl h
  | cons p rest ih =>
      intro acc s h
      rcases ih (if p.2 = q then goAppend acc p.1 else acc) s h with
        hacc | ⟨u, tok, hmem, heq⟩
      · by_cases hp : p.2 = q
        · rw [if_pos hp] at hacc
          rcases goAppend_mem acc p.1 s hacc with h2 | h2
          · exact Or.inl h2
          · exact Or.inr ⟨p.1, p.2, by simp, h2⟩
        · rw [if_neg hp] at hacc
          exact Or.inl hacc
      · exact Or.inr ⟨u, tok, List.mem_cons_of_mem _ hmem, heq⟩

/-- C9, amended: the diagnostics response depends on the stored device
addresses only through key presence (so it never reveals an address:
its output is unchanged under any change of the stored address values),
and every string in a reverse-lookup response is either the
caller-supplied token or a stored user ID — a stored address appears
only as the token the caller itself supplied. -/
theorem claim_C9_amended :
    (∀ (uidStr : String) (now : Int) (fetch : Except String (List Game))
       (st st2 : MoveStorage),
       st2.moves = st.moves →
       st2.lastNotificationTime = st.lastNotificationTime →
       (∀ u, (lookupA st2.deviceTokens u).isSome =
         (lookupA st.deviceTokens u).isSome) →
       getUserDiagnostics uidStr now fetch st2 =
         getUserDiagnostics uidStr now fetch st) ∧
    (∀ (q : String) (st : MoveStorage) (resp : DeviceTokenUsers) (s : String),
       getUsersByDeviceToken q st = .ok resp →
       s ∈ deviceTokenUsersStrings resp →
       s = q ∨ ∃ u tok, (u, tok) ∈ st.deviceTokens ∧ s = u) := by
  constructor
  · intro uidStr now fetch st st2 hm hl hd
    unfold getUserDiagnostics
    cases h : uidStr.toInt? with
    | none => rfl
    | some uid =>
        cases fetch with
        | error e => rfl
        | ok games =>
            rw [hl, hd uidStr]
  · intro q st resp s hok hmem
    unfold getUsersByDeviceToken at hok
    by_cases hq : q = ""
    · rw [if_pos hq] at hok
      exact absurd hok (by simp)
    · rw [if_neg hq] at hok
      have hre := Except.ok.inj hok
      subst hre
      unfold deviceTokenUsersStrings at hmem
      rcases List.mem_cons.mp hmem with heq | hmem2
      · exact Or.inl heq
      · rcases goFold_mem q st.deviceTokens none s hmem2 with h0 | hrest
        · exact absurd h0 (by simp)
        · exact Or.inr hrest

/-- Witness for the amended C9: diagnostics is unchanged when the stored
token value changes, and the reverse-lookup response strings resolve to
the request token or a user ID. -/
theorem claim_C9_amended_witness :
    getUserDiagnostics "42" 100 (.ok []) ⟨[], [("42", "tokA")], []⟩ =
      getUserDiagnostics "42" 100 (.ok []) ⟨[], [("42", "tokB")], []⟩ ∧
    ("42" = "tok" ∨
      ∃ u tok2, (u, tok2) ∈ ([("42", "tok")] : List (String × String)) ∧
        "42" = u) :=
  ⟨claim_C9_amended.1 "42" 100 (.ok []) ⟨[], [("42", "tokB")], []⟩
      ⟨[], [("42", "tokA")], []⟩ rfl rfl
      (fun u => by by_cases h : u = "42" <;> simp [lookupA, h]),
   claim_C9_amended.2 "tok" ⟨[], [("42", "tok")], []⟩ ⟨"tok", some ["42"]⟩
      "42" rfl (by decide)⟩

end OGSNotif
